import Mathlib

/-!
Verification of the M4 evaluation pipeline of this repository:
a shallow embedding of src/summary/m4.py (M4Summary.evaluate,
M4Summary.summarize_groups) and src/datasets/m4.py (M4Dataset.load,
M4Dataset.download), with theorems about the embedded definitions.

Machine floats (numpy float64) are idealised as rationals.  The type NpF
wraps a rational in Option: the value none stands for a non-finite float
(NaN or an infinity), which numpy produces, with a runtime warning, where
exact arithmetic would divide by zero.  Python dicts are association
lists, OrderedDict insertion order is the list order, and a dict access
on a missing key is an Except error mirroring the KeyError exception.

The helper module common/metrics.py (smape_2, mase) is not part of the
repository snapshot, so the two metric functions are parameters of the
embedded evaluate; summary/utils.py (group_values) is likewise absent and
is modelled from the spec where noted.
-/

/-- The six M4 seasonal-pattern labels, the SP column of M4Info.csv. -/
inductive CategoryLabel where
  | Yearly
  | Quarterly
  | Monthly
  | Weekly
  | Daily
  | Hourly
deriving DecidableEq, Fintype, Repr

/-- The keys of the maps returned by summarize_groups: the three major
categories followed by the synthetic Others bucket and the grand Average. -/
inductive Bucket where
  | Yearly
  | Quarterly
  | Monthly
  | Others
  | Average
deriving DecidableEq, Fintype, Repr

/-- The string form of a category label, as it appears in the SP column
and as the key of the Python score dicts. -/
def catName : CategoryLabel → String
  | .Yearly => "Yearly"
  | .Quarterly => "Quarterly"
  | .Monthly => "Monthly"
  | .Weekly => "Weekly"
  | .Daily => "Daily"
  | .Hourly => "Hourly"

/-- The string form of a summary-bucket key. -/
def bucketName : Bucket → String
  | .Yearly => "Yearly"
  | .Quarterly => "Quarterly"
  | .Monthly => "Monthly"
  | .Others => "Others"
  | .Average => "Average"

/-- The fixed key order of the summaries produced by summarize_groups. -/
def bucketOrder : List Bucket :=
  [Bucket.Yearly, Bucket.Quarterly, Bucket.Monthly, Bucket.Others, Bucket.Average]

/-- A numpy float64 value: some q when the value is the finite rational q,
none when it is non-finite (NaN or an infinity). -/
abbrev NpF := Option ℚ

/-- Addition of float values; any operation on a non-finite operand is
collapsed to a non-finite result. -/
def nadd : NpF → NpF → NpF
  | some a, some b => some (a + b)
  | _, _ => none

/-- numpy float division: a finite value divided by zero yields a
non-finite float (inf or NaN) with a runtime warning, not an exception. -/
def ndiv : NpF → NpF → NpF
  | some a, some b => if b = 0 then none else some (a / b)
  | _, _ => none

/-- Python dict lookup on an association list; the first binding wins (the
maps built by this pipeline have distinct keys). -/
def aget {α β : Type} [DecidableEq α] : List (α × β) → α → Option β
  | [], _ => none
  | (k, v) :: l, a => if k = a then some v else aget l a

/-- Errors the evaluation pipeline can raise: a Python KeyError on a dict
access with a missing key, or an IndexError on indexing an empty
selection. -/
inductive EvalErr where
  | keyError (key : String)
  | indexError
deriving DecidableEq, Repr

/-- Converts an Except value to a sum, for the decidable-equality
instance below. -/
def exceptToSum {ε α : Type} : Except ε α → ε ⊕ α
  | Except.error e => Sum.inl e
  | Except.ok a => Sum.inr a

instance {ε α : Type} [DecidableEq ε] [DecidableEq α] : DecidableEq (Except ε α) :=
  fun a b =>
    decidable_of_iff (exceptToSum a = exceptToSum b)
      (by cases a <;> cases b <;> simp [exceptToSum])

/-- The dict access scores[g] of summarize_groups: raises KeyError with
the label as the key when g is not a key of the map. -/
def getScore (scores : List (CategoryLabel × ℚ)) (g : CategoryLabel) :
    Except EvalErr ℚ :=
  match aget scores g with
  | some v => Except.ok v
  | none => Except.error (EvalErr.keyError (catName g))

/-- group_count of summarize_groups:
len(np.where(self.test_set.groups == group_name)[0]), with the groups
column passed explicitly. -/
def group_count (groups : List CategoryLabel) (g : CategoryLabel) : ℕ :=
  (groups.filter (fun x => decide (x = g))).length

/-- M4Summary.summarize_groups (src/summary/m4.py, lines 75 to 100), with
self.test_set.groups passed explicitly.  Reads the six labels from the
scores dict in source loop order (majors, then minors), passes the three
major scores through, pools the three minor weighted scores into Others,
and appends the grand Average of all weighted scores over the total
series count.  The two divisions are numpy float divisions, hence give a
non-finite value (none) rather than raising when a denominator is zero;
note that the Average numerator uses the undivided pooled minor weight,
so Average can be finite even when Others is not. -/
def summarize_groups (groups : List CategoryLabel)
    (scores : List (CategoryLabel × ℚ)) :
    Except EvalErr (List (Bucket × NpF)) := do
  let sY ← getScore scores CategoryLabel.Yearly
  let sQ ← getScore scores CategoryLabel.Quarterly
  let sM ← getScore scores CategoryLabel.Monthly
  let sW ← getScore scores CategoryLabel.Weekly
  let sD ← getScore scores CategoryLabel.Daily
  let sH ← getScore scores CategoryLabel.Hourly
  let wY : ℚ := sY * (group_count groups CategoryLabel.Yearly : ℚ)
  let wQ : ℚ := sQ * (group_count groups CategoryLabel.Quarterly : ℚ)
  let wM : ℚ := sM * (group_count groups CategoryLabel.Monthly : ℚ)
  let others_score : ℚ :=
    sW * (group_count groups CategoryLabel.Weekly : ℚ) +
    sD * (group_count groups CategoryLabel.Daily : ℚ) +
    sH * (group_count groups CategoryLabel.Hourly : ℚ)
  let others_count : ℕ :=
    group_count groups CategoryLabel.Weekly +
    group_count groups CategoryLabel.Daily +
    group_count groups CategoryLabel.Hourly
  let others : NpF :=
    if others_count = 0 then none
    else some (others_score / (others_count : ℚ))
  let average : NpF :=
    if groups.length = 0 then none
    else some ((wY + wQ + wM + others_score) / (groups.length : ℚ))
  Except.ok [(Bucket.Yearly, some sY), (Bucket.Quarterly, some sQ),
    (Bucket.Monthly, some sM), (Bucket.Others, others),
    (Bucket.Average, average)]

/-- Reads one bucket of a summarize_groups result, none when the call
failed or the key is absent. -/
def getBucket (r : Except EvalErr (List (Bucket × NpF))) (b : Bucket) :
    Option NpF :=
  match r with
  | Except.ok l => aget l b
  | Except.error _ => none

/-- np.unique over the array of category labels: the distinct labels
present, in ascending lexicographic order of their string form
(Daily, Hourly, Monthly, Quarterly, Weekly, Yearly). -/
def npUnique (l : List CategoryLabel) : List CategoryLabel :=
  [CategoryLabel.Daily, CategoryLabel.Hourly, CategoryLabel.Monthly,
   CategoryLabel.Quarterly, CategoryLabel.Weekly,
   CategoryLabel.Yearly].filter (fun c => decide (c ∈ l))

/-- Modelled from the spec: group_values lives in summary/utils.py, which
is not in the repository snapshot.  Section 4.2 describes it as a stable
filter that keeps, in their original relative order, exactly the entries
whose category label equals the target category, i.e. the numpy
boolean-mask selection values[groups == group_name] over a ragged array. -/
def group_values {α : Type} (values : List α) (groups : List CategoryLabel)
    (group_name : CategoryLabel) : List α :=
  ((values.zip groups).filter (fun p => decide (p.2 = group_name))).map Prod.fst

/-- The expression
self.training_set.frequencies[self.test_set.groups == group_name][0]
of evaluate: the declared frequency of the first series of the category
in reference-table row order; none models the IndexError raised on an
empty selection. -/
def groupFrequency (testGroups : List CategoryLabel) (trainFreqs : List ℕ)
    (g : CategoryLabel) : Option ℕ :=
  ((((trainFreqs.zip testGroups).filter
    (fun p => decide (p.2 = g))).map Prod.fst)).head?

/-- Three-list pointwise combination, rendering the index loop
for i in range(len(model_forecast)) over three equal-length group
slices. -/
def zipWith3 {α β γ δ : Type} (f : α → β → γ → δ) :
    List α → List β → List γ → List δ
  | a :: as, b :: bs, c :: cs => f a b c :: zipWith3 f as bs cs
  | _, _, _ => []

/-- np.mean of a list of floats. -/
def listMean (l : List ℚ) : ℚ := l.sum / (l.length : ℚ)

/-- Monadic map over Except: the per-element do-blocks of the evaluate
loops, short-circuiting at the first raised error. -/
def exceptMap {ε α β : Type} (f : α → Except ε β) :
    List α → Except ε (List β)
  | [] => Except.ok []
  | a :: l => do
      let b ← f a
      let r ← exceptMap f l
      Except.ok (b :: r)

/-- The grouped_smapes comprehension of evaluate (lines 28 to 35), also
used for naive2_smapes (line 64): one entry per category present in the
test set, in np.unique order.  The parameter smapeMean stands for the
composite np.mean(smape_2(forecast-group, target-group)); smape_2 comes
from common/metrics.py, which is not in the repository snapshot, so the
group-level composite is kept abstract. -/
def raw_smapes (smapeMean : List (List ℚ) → List (List ℚ) → ℚ)
    (forecast : List (List ℚ)) (testGroups : List CategoryLabel)
    (testValues : List (List ℚ)) : List (CategoryLabel × ℚ) :=
  (npUnique testGroups).map (fun g =>
    (g, smapeMean (group_values forecast testGroups g)
      (group_values testValues testGroups g)))

/-- The model_mases and naive2_mases loop bodies of evaluate (lines 45 to
62): for each category in np.unique order, select the group slices, take
the frequency of the first series of the group, and average the
per-series mase scores; every series of the group is scored with that
one shared frequency.  The per-series mase function is a parameter
(common/metrics.py is not in the snapshot).  The three group slices have
equal length whenever the stores are row-aligned with the reference
table, so the index loop is rendered with zipWith3. -/
def mases_map (mase : List ℚ → List ℚ → List ℚ → ℕ → ℚ)
    (testGroups : List CategoryLabel)
    (forecast trainValues testValues : List (List ℚ))
    (trainFreqs : List ℕ) : Except EvalErr (List (CategoryLabel × ℚ)) :=
  exceptMap (fun g => do
    let model_forecast := group_values forecast testGroups g
    let target := group_values testValues testGroups g
    let frequency ← match groupFrequency testGroups trainFreqs g with
      | some f => Except.ok f
      | none => Except.error EvalErr.indexError
    let insample := group_values trainValues testGroups g
    Except.ok (g, listMean (zipWith3
      (fun fc ins tgt => mase fc ins tgt frequency)
      model_forecast insample target)))
    (npUnique testGroups)

/-- The dict access map[k] on a summary keyed by buckets. -/
def getB (m : List (Bucket × NpF)) (k : Bucket) : Except EvalErr NpF :=
  match aget m k with
  | some v => Except.ok v
  | none => Except.error (EvalErr.keyError (bucketName k))

/-- The OWA combination loop of evaluate (lines 66 to 70): iterate over
the keys of grouped_model_mases and ratio-combine the four
already-summarized maps,
(model mase over naive2 mase plus model smape over naive2 smape) / 2. -/
def grouped_owa (gmm gn2m gs gn2s : List (Bucket × NpF)) :
    Except EvalErr (List (Bucket × NpF)) :=
  exceptMap (fun kv => do
    let n2m ← getB gn2m kv.1
    let sv ← getB gs kv.1
    let n2s ← getB gn2s kv.1
    Except.ok (kv.1, ndiv (nadd (ndiv kv.2 n2m) (ndiv sv n2s)) (some 2)))
    gmm

/-- Rounding of a rational to the nearest integer with ties to the even
integer, the rounding mode of np.round. -/
def roundHalfEven (q : ℚ) : ℤ :=
  let f := ⌊q⌋
  if q - f < 1 / 2 then f
  else if 1 / 2 < q - f then f + 1
  else if f % 2 = 0 then f else f + 1

/-- np.round(x, 3). -/
def round3 (q : ℚ) : ℚ := (roundHalfEven (q * 1000) : ℚ) / 1000

/-- np.round on a float value: non-finite values stay non-finite. -/
def nround3 : NpF → NpF
  | some q => some (round3 q)
  | none => none

/-- round_all of evaluate (lines 71 to 72): round every value of a
summary to 3 decimal digits, keeping the keys. -/
def round_all (m : List (Bucket × NpF)) : List (Bucket × NpF) :=
  m.map (fun kv => (kv.1, nround3 kv.2))

/-- The row transform v[~np.isnan(v)] (lines 26 and 41): drop the NaN
entries of a raw row, keeping the finite entries in order; none encodes
NaN in a raw row. -/
def stripNaN (v : List (Option ℚ)) : List ℚ := v.filterMap id

/-- The loaded M4 dataset of src/datasets/m4.py: the four reference-table
columns plus the cached ragged value store, row-aligned. -/
structure M4Dataset where
  ids : List String
  groups : List CategoryLabel
  frequencies : List ℕ
  horizons : List ℕ
  values : List (List ℚ)
deriving DecidableEq, Repr

/-- The naive2 baseline csv read by evaluate (lines 40 to 41): the first
column is the series identifier, the remaining cells of each row are the
forecast values; values[:, 1:] keeps the cells, and each row is then
NaN-stripped. -/
def naive2_strip (rows : List (String × List (Option ℚ))) :
    List (List ℚ) :=
  rows.map (fun r => stripNaN r.2)

/-- The body of M4Summary.evaluate after the forecast NaN stripping
(lines 28 to 73), with the two loaded datasets, the parsed naive2 csv
content and the two metric functions passed explicitly.  The source
computes the four per-category score maps, summarizes each with
summarize_groups, ratio-combines the four summaries into the OWA map,
and only then rounds the two returned maps. -/
def evaluate_stripped (train test : M4Dataset)
    (naive2rows : List (String × List (Option ℚ)))
    (smapeMean : List (List ℚ) → List (List ℚ) → ℚ)
    (mase : List ℚ → List ℚ → List ℚ → ℕ → ℚ)
    (forecast : List (List ℚ)) :
    Except EvalErr (List (Bucket × NpF) × List (Bucket × NpF)) := do
  let grouped_smapes ← summarize_groups test.groups
    (raw_smapes smapeMean forecast test.groups test.values)
  let naive2_forecasts := naive2_strip naive2rows
  let model_mases ← mases_map mase test.groups forecast train.values
    test.values train.frequencies
  let naive2_mases ← mases_map mase test.groups naive2_forecasts
    train.values test.values train.frequencies
  let grouped_model_mases ← summarize_groups test.groups model_mases
  let grouped_naive2_smapes ← summarize_groups test.groups
    (raw_smapes smapeMean naive2_forecasts test.groups test.values)
  let grouped_naive2_mases ← summarize_groups test.groups naive2_mases
  let owa ← grouped_owa grouped_model_mases grouped_naive2_mases
    grouped_smapes grouped_naive2_smapes
  Except.ok (round_all grouped_smapes, round_all owa)

/-- The M4Summary session state: the two datasets loaded once by the
constructor and read thereafter. -/
structure M4Summary where
  training_set : M4Dataset
  test_set : M4Dataset
deriving DecidableEq, Repr

/-- M4Summary.evaluate (lines 19 to 73): its first step strips the NaN
entries from every caller-supplied forecast row, then the stripped rows
are scored. -/
def M4Summary.evaluate (s : M4Summary)
    (naive2rows : List (String × List (Option ℚ)))
    (smapeMean : List (List ℚ) → List (List ℚ) → ℚ)
    (mase : List ℚ → List ℚ → List ℚ → ℕ → ℚ)
    (forecast : List (List (Option ℚ))) :
    Except EvalErr (List (Bucket × NpF) × List (Bucket × NpF)) :=
  evaluate_stripped s.training_set s.test_set naive2rows smapeMean mase
    (forecast.map stripNaN)

/-- State-passing form of M4Summary.evaluate: the method reads the two
dataset fields and never assigns to them, so the translated call returns
the session unchanged next to its result. -/
def M4Summary.evaluateS (s : M4Summary)
    (naive2rows : List (String × List (Option ℚ)))
    (smapeMean : List (List ℚ) → List (List ℚ) → ℚ)
    (mase : List ℚ → List ℚ → List ℚ → ℕ → ℚ)
    (forecast : List (List (Option ℚ))) :
    Except EvalErr (List (Bucket × NpF) × List (Bucket × NpF)) × M4Summary :=
  (s.evaluate naive2rows smapeMean mase forecast, s)

/-- The category groupings derived from a loaded dataset: for every
distinct category in np.unique order, the group slice of the value
store, exactly as evaluate derives them. -/
def deriveGroupings (d : M4Dataset) :
    List (CategoryLabel × List (List ℚ)) :=
  (npUnique d.groups).map (fun g => (g, group_values d.values d.groups g))

/-- A forecast array in the documented padding layout: each series is its
valid prefix followed by NaN padding. -/
def padForecast (ps : List (List ℚ)) (ks : List ℕ) :
    List (List (Option ℚ)) :=
  List.zipWith (fun p k => p.map some ++ List.replicate k none) ps ks

/-- Parsed content of M4Info.csv: the four columns M4Dataset.load reads,
named after the csv headers. -/
structure InfoTable where
  M4id : List String
  SP : List CategoryLabel
  Frequency : List ℕ
  Horizon : List ℕ
deriving DecidableEq, Repr

/-- View of the dataset directory as seen by M4Dataset.load: none means
the file is missing on disk; contents are modelled already parsed. -/
structure M4FS where
  infoFile : Option InfoTable
  trainingCache : Option (List (List ℚ))
  testCache : Option (List (List ℚ))
deriving DecidableEq, Repr

/-- The error M4Dataset.load surfaces: the FileNotFoundError that
pd.read_csv or np.load raises on a missing file, carrying the path. -/
inductive LoadErr where
  | fileNotFound (path : String)
deriving DecidableEq, Repr

/-- DATASET_PATH of src/datasets/m4.py; the DATASETS_PATH root comes from
common/settings.py, which is not in the snapshot, and is rendered here
as the literal directory name it joins under. -/
def DATASET_PATH : String := "datasets/m4"

/-- Path of the reference table M4Info.csv (the url_file_name of
INFO_URL). -/
def INFO_FILE_PATH : String := DATASET_PATH ++ "/M4Info.csv"

/-- Path of the cached training value store. -/
def TRAINING_DATASET_CACHE_FILE_PATH : String :=
  DATASET_PATH ++ "/training.npz"

/-- Path of the cached test value store. -/
def TEST_DATASET_CACHE_FILE_PATH : String := DATASET_PATH ++ "/test.npz"

/-- Source url of the training archive. -/
def TRAINING_DATASET_URL : String :=
  "https://www.m4.unic.ac.cy/wp-content/uploads/2017/12/M4DataSet.zip"

/-- Source url of the test archive. -/
def TEST_DATASET_URL : String :=
  "https://www.m4.unic.ac.cy/wp-content/uploads/2018/07/M-test-set.zip"

/-- Source url of the reference table. -/
def INFO_URL : String :=
  "https://www.m4.unic.ac.cy/wp-content/uploads/2018/12/M4Info.csv"

/-- Source url of the naive2 baseline forecast archive. -/
def NAIVE2_FORECAST_URL : String :=
  "https://github.com/M4Competition/M4-methods/raw/master/Point%20Forecasts/submission-Naive2.rar"

/-- Local path of the downloaded training archive. -/
def TRAINING_DATASET_FILE_PATH : String := DATASET_PATH ++ "/M4DataSet.zip"

/-- Local path of the downloaded test archive. -/
def TEST_DATASET_FILE_PATH : String := DATASET_PATH ++ "/M-test-set.zip"

/-- Local path of the downloaded naive2 archive (the url_file_name of
NAIVE2_FORECAST_URL). -/
def NAIVE2_ARCHIVE_PATH : String :=
  DATASET_PATH ++ "/submission-Naive2.rar"

/-- M4Dataset.load (src/datasets/m4.py, lines 43 to 57): read M4Info.csv,
then the cached value store of the requested partition, and assemble the
dataset from the table columns and the cache.  A missing file surfaces
immediately as the corresponding FileNotFoundError; the function is a
pure reader, attempts nothing else, and in particular never rebuilds the
cache. -/
def M4Dataset.load (fs : M4FS) (training : Bool) :
    Except LoadErr M4Dataset := do
  let m4_info ← match fs.infoFile with
    | some i => Except.ok i
    | none => Except.error (LoadErr.fileNotFound INFO_FILE_PATH)
  let vals ← match (if training then fs.trainingCache else fs.testCache) with
    | some v => Except.ok v
    | none => Except.error (LoadErr.fileNotFound
        (if training then TRAINING_DATASET_CACHE_FILE_PATH
         else TEST_DATASET_CACHE_FILE_PATH))
  Except.ok (M4Dataset.mk m4_info.M4id m4_info.SP m4_info.Frequency
    m4_info.Horizon vals)

/-- M4Summary.__init__ (lines 15 to 17): load the training and the test
partitions of the cached dataset. -/
def M4Summary.init (fs : M4FS) : Except LoadErr M4Summary := do
  let training_set ← M4Dataset.load fs true
  let test_set ← M4Dataset.load fs false
  Except.ok (M4Summary.mk training_set test_set)

/-- One externally visible step performed by M4Dataset.download. -/
inductive DlAction where
  | downloadFile (url : String) (target : String)
  | extractArchive (file : String)
  | buildCacheFiles (filesPattern : String) (cachePath : String)
deriving DecidableEq, Repr

/-- The disk as seen by M4Dataset.download: whether the dataset directory
exists, and the (parsed) files inside it, none when missing. -/
structure DiskState where
  datasetDirExists : Bool
  infoFile : Option InfoTable
  trainingCache : Option (List (List ℚ))
  testCache : Option (List (List ℚ))
  naive2File : Option (List (String × List (Option ℚ)))
deriving DecidableEq, Repr

/-- build_cache of M4Dataset.download (lines 70 to 79): an ordered dict
over the reference-table ids, each initialised to an empty row; every
extracted csv row assigns its NaN-stripped values to its id, a later
row overwriting an earlier one.  Rows whose id is outside the reference
table are ignored here (the corpus contains none). -/
def build_cache (m4_ids : List String)
    (rows : List (String × List (Option ℚ))) : List (List ℚ) :=
  m4_ids.map (fun i =>
    match aget rows.reverse i with
    | some v => stripNaN v
    | none => [])

/-- M4Dataset.download (src/datasets/m4.py, lines 59 to 92), with the
network modelled as oracle arguments giving the parsed content each url
yields; returns the new disk state and the log of performed actions in
source order.  If the dataset directory already exists the function logs
a skip message and returns at once, leaving the disk untouched and
performing no action, whatever files the directory holds or lacks. -/
def M4Dataset.download (netInfo : InfoTable)
    (netTrain netTest netNaive2 : List (String × List (Option ℚ)))
    (ds : DiskState) : DiskState × List DlAction :=
  if ds.datasetDirExists then (ds, [])
  else
    (DiskState.mk true (some netInfo)
      (some (build_cache netInfo.M4id netTrain))
      (some (build_cache netInfo.M4id netTest))
      (some netNaive2),
     [DlAction.downloadFile INFO_URL INFO_FILE_PATH,
      DlAction.downloadFile TRAINING_DATASET_URL TRAINING_DATASET_FILE_PATH,
      DlAction.extractArchive TRAINING_DATASET_FILE_PATH,
      DlAction.buildCacheFiles ("*-train.csv") TRAINING_DATASET_CACHE_FILE_PATH,
      DlAction.downloadFile TEST_DATASET_URL TEST_DATASET_FILE_PATH,
      DlAction.extractArchive TEST_DATASET_FILE_PATH,
      DlAction.buildCacheFiles ("*-test.csv") TEST_DATASET_CACHE_FILE_PATH,
      DlAction.downloadFile NAIVE2_FORECAST_URL NAIVE2_ARCHIVE_PATH,
      DlAction.extractArchive NAIVE2_ARCHIVE_PATH])

/-- Concrete test-set groups realising the aggregation example of the
spec: 2 Yearly, 3 Quarterly, 5 Monthly and one series in each minor
category, 13 series in all. -/
def exGroups : List CategoryLabel :=
  [CategoryLabel.Yearly, CategoryLabel.Yearly,
   CategoryLabel.Quarterly, CategoryLabel.Quarterly, CategoryLabel.Quarterly,
   CategoryLabel.Monthly, CategoryLabel.Monthly, CategoryLabel.Monthly,
   CategoryLabel.Monthly, CategoryLabel.Monthly,
   CategoryLabel.Weekly, CategoryLabel.Daily, CategoryLabel.Hourly]

/-- Concrete per-category scores of the aggregation example. -/
def exScores : List (CategoryLabel × ℚ) :=
  [(CategoryLabel.Yearly, 1), (CategoryLabel.Quarterly, 2),
   (CategoryLabel.Monthly, 3), (CategoryLabel.Weekly, 4),
   (CategoryLabel.Daily, 5), (CategoryLabel.Hourly, 6)]

/-- Concrete groups with the Weekly category empty but Daily and Hourly
populated. -/
def noWeeklyGroups : List CategoryLabel :=
  [CategoryLabel.Yearly, CategoryLabel.Quarterly, CategoryLabel.Monthly,
   CategoryLabel.Daily, CategoryLabel.Hourly]

/-- A score map holding all six labels with score 1. -/
def unitScores : List (CategoryLabel × ℚ) :=
  [(CategoryLabel.Yearly, 1), (CategoryLabel.Quarterly, 2),
   (CategoryLabel.Monthly, 3), (CategoryLabel.Weekly, 4),
   (CategoryLabel.Daily, 4), (CategoryLabel.Hourly, 4)]

/-- A tiny six-series dataset, one series per category, used as a
concrete evaluation session. -/
def tinySet : M4Dataset :=
  M4Dataset.mk (List.replicate 6 ("x"))
    [CategoryLabel.Yearly, CategoryLabel.Quarterly, CategoryLabel.Monthly,
     CategoryLabel.Weekly, CategoryLabel.Daily, CategoryLabel.Hourly]
    [1, 4, 12, 1, 1, 24] [6, 8, 18, 13, 14, 48]
    [[1], [1], [1], [1], [1], [1]]

/-- The tiny session built from two copies of the tiny dataset. -/
def tinySummary : M4Summary := M4Summary.mk tinySet tinySet

/-- A naive2 csv content for the tiny session: one one-cell row per
series. -/
def tinyNaive2 : List (String × List (Option ℚ)) :=
  List.replicate 6 (("x"), [some 1])

/-- A caller forecast for the tiny session. -/
def tinyForecast : List (List (Option ℚ)) := List.replicate 6 [some 1]

/-- The summary the tiny session produces for both returned maps. -/
def tinyOut : List (Bucket × NpF) :=
  [(Bucket.Yearly, some 1), (Bucket.Quarterly, some 1),
   (Bucket.Monthly, some 1), (Bucket.Others, some 1),
   (Bucket.Average, some 1)]

@[simp]
theorem except_bind_ok {ε α β : Type} (a : α) (f : α → Except ε β) :
    (Except.ok a >>= f : Except ε β) = f a := rfl

@[simp]
theorem except_bind_error {ε α β : Type} (e : ε) (f : α → Except ε β) :
    (Except.error e >>= f : Except ε β) = Except.error e := rfl

theorem summarize_groups_eq (groups : List CategoryLabel)
    (scores : List (CategoryLabel × ℚ)) (sY sQ sM sW sD sH : ℚ)
    (hY : aget scores CategoryLabel.Yearly = some sY)
    (hQ : aget scores CategoryLabel.Quarterly = some sQ)
    (hM : aget scores CategoryLabel.Monthly = some sM)
    (hW : aget scores CategoryLabel.Weekly = some sW)
    (hD : aget scores CategoryLabel.Daily = some sD)
    (hH : aget scores CategoryLabel.Hourly = some sH) :
    summarize_groups groups scores = Except.ok
      [(Bucket.Yearly, some sY), (Bucket.Quarterly, some sQ),
       (Bucket.Monthly, some sM),
       (Bucket.Others,
         if group_count groups CategoryLabel.Weekly +
            group_count groups CategoryLabel.Daily +
            group_count groups CategoryLabel.Hourly = 0 then none
         else some ((sW * (group_count groups CategoryLabel.Weekly : ℚ) +
            sD * (group_count groups CategoryLabel.Daily : ℚ) +
            sH * (group_count groups CategoryLabel.Hourly : ℚ)) /
            ((group_count groups CategoryLabel.Weekly +
              group_count groups CategoryLabel.Daily +
              group_count groups CategoryLabel.Hourly : ℕ) : ℚ))),
       (Bucket.Average,
         if groups.length = 0 then none
         else some ((sY * (group_count groups CategoryLabel.Yearly : ℚ) +
            sQ * (group_count groups CategoryLabel.Quarterly : ℚ) +
            sM * (group_count groups CategoryLabel.Monthly : ℚ) +
            (sW * (group_count groups CategoryLabel.Weekly : ℚ) +
             sD * (group_count groups CategoryLabel.Daily : ℚ) +
             sH * (group_count groups CategoryLabel.Hourly : ℚ))) /
            (groups.length : ℚ)))] := by
  simp [summarize_groups, getScore, hY, hQ, hM, hW, hD, hH]

theorem getBucket_ok (l : List (Bucket × NpF)) (b : Bucket) :
    getBucket (Except.ok l) b = aget l b := rfl

theorem aget5_Y (v1 v2 v3 v4 v5 : NpF) :
    aget [(Bucket.Yearly, v1), (Bucket.Quarterly, v2), (Bucket.Monthly, v3),
      (Bucket.Others, v4), (Bucket.Average, v5)] Bucket.Yearly = some v1 := rfl

theorem aget5_Q (v1 v2 v3 v4 v5 : NpF) :
    aget [(Bucket.Yearly, v1), (Bucket.Quarterly, v2), (Bucket.Monthly, v3),
      (Bucket.Others, v4), (Bucket.Average, v5)] Bucket.Quarterly =
      some v2 := rfl

theorem aget5_M (v1 v2 v3 v4 v5 : NpF) :
    aget [(Bucket.Yearly, v1), (Bucket.Quarterly, v2), (Bucket.Monthly, v3),
      (Bucket.Others, v4), (Bucket.Average, v5)] Bucket.Monthly =
      some v3 := rfl

theorem aget5_O (v1 v2 v3 v4 v5 : NpF) :
    aget [(Bucket.Yearly, v1), (Bucket.Quarterly, v2), (Bucket.Monthly, v3),
      (Bucket.Others, v4), (Bucket.Average, v5)] Bucket.Others =
      some v4 := rfl

theorem aget5_A (v1 v2 v3 v4 v5 : NpF) :
    aget [(Bucket.Yearly, v1), (Bucket.Quarterly, v2), (Bucket.Monthly, v3),
      (Bucket.Others, v4), (Bucket.Average, v5)] Bucket.Average =
      some v5 := rfl

theorem group_count_eq_zero (l : List CategoryLabel) (g : CategoryLabel) :
    group_count l g = 0 ↔ g ∉ l := by
  induction l with
  | nil => simp [group_count]
  | cons a t ih =>
      by_cases h : a = g
      · subst h
        simp [group_count, List.filter_cons]
      · simp [group_count, List.filter_cons, h, Ne.symm h]
        simpa [group_count] using ih

theorem length_eq_sum_group_counts (l : List CategoryLabel) :
    l.length = group_count l CategoryLabel.Yearly +
      group_count l CategoryLabel.Quarterly +
      group_count l CategoryLabel.Monthly +
      group_count l CategoryLabel.Weekly +
      group_count l CategoryLabel.Daily +
      group_count l CategoryLabel.Hourly := by
  induction l with
  | nil => rfl
  | cons a t ih =>
      cases a <;> simp [group_count, List.filter_cons] at * <;> omega

theorem mem_npUnique (l : List CategoryLabel) (c : CategoryLabel) :
    c ∈ npUnique l ↔ c ∈ l := by
  cases c <;> simp [npUnique, List.mem_filter]

theorem aget_map_eq_none {β : Type} (l : List CategoryLabel)
    (f : CategoryLabel → β) (c : CategoryLabel) (h : c ∉ l) :
    aget (l.map (fun g => (g, f g))) c = none := by
  induction l with
  | nil => rfl
  | cons a t ih =>
      simp only [List.map, aget]
      have h1 : ¬ a = c := fun hh => h (by simp [hh])
      rw [if_neg h1]
      exact ih (fun hh => h (List.mem_cons_of_mem a hh))

theorem summarize_groups_error_of_missing (groups : List CategoryLabel)
    (scores : List (CategoryLabel × ℚ)) (c : CategoryLabel)
    (hc : aget scores c = none) :
    ∃ e, summarize_groups groups scores = Except.error e := by
  cases hY : aget scores CategoryLabel.Yearly with
  | none =>
      exact ⟨EvalErr.keyError (catName CategoryLabel.Yearly),
        by simp [summarize_groups, getScore, hY]⟩
  | some sY =>
  cases hQ : aget scores CategoryLabel.Quarterly with
  | none =>
      exact ⟨EvalErr.keyError (catName CategoryLabel.Quarterly),
        by simp [summarize_groups, getScore, hY, hQ]⟩
  | some sQ =>
  cases hM : aget scores CategoryLabel.Monthly with
  | none =>
      exact ⟨EvalErr.keyError (catName CategoryLabel.Monthly),
        by simp [summarize_groups, getScore, hY, hQ, hM]⟩
  | some sM =>
  cases hW : aget scores CategoryLabel.Weekly with
  | none =>
      exact ⟨EvalErr.keyError (catName CategoryLabel.Weekly),
        by simp [summarize_groups, getScore, hY, hQ, hM, hW]⟩
  | some sW =>
  cases hD : aget scores CategoryLabel.Daily with
  | none =>
      exact ⟨EvalErr.keyError (catName CategoryLabel.Daily),
        by simp [summarize_groups, getScore, hY, hQ, hM, hW, hD]⟩
  | some sD =>
  cases hH : aget scores CategoryLabel.Hourly with
  | none =>
      exact ⟨EvalErr.keyError (catName CategoryLabel.Hourly),
        by simp [summarize_groups, getScore, hY, hQ, hM, hW, hD, hH]⟩
  | some sH =>
      exact absurd hc (by cases c <;> simp [hY, hQ, hM, hW, hD, hH])

/-- Claim C1: on a score map holding all six category labels (and a
populated minor pool, so that the count-weighted average is defined),
summarize_groups passes the three major scores through unchanged under
their own keys, and its Others entry is the count-weighted average of
the Weekly, Daily and Hourly scores, the counts being the numbers of
test-set series per category. -/
theorem summarize_groups_majors_passthrough_others_weighted
    (groups : List CategoryLabel) (scores : List (CategoryLabel × ℚ))
    (sY sQ sM sW sD sH : ℚ)
    (hY : aget scores CategoryLabel.Yearly = some sY)
    (hQ : aget scores CategoryLabel.Quarterly = some sQ)
    (hM : aget scores CategoryLabel.Monthly = some sM)
    (hW : aget scores CategoryLabel.Weekly = some sW)
    (hD : aget scores CategoryLabel.Daily = some sD)
    (hH : aget scores CategoryLabel.Hourly = some sH)
    (hcnt : 0 < group_count groups CategoryLabel.Weekly +
      group_count groups CategoryLabel.Daily +
      group_count groups CategoryLabel.Hourly) :
    getBucket (summarize_groups groups scores) Bucket.Yearly =
      some (some sY) ∧
    getBucket (summarize_groups groups scores) Bucket.Quarterly =
      some (some sQ) ∧
    getBucket (summarize_groups groups scores) Bucket.Monthly =
      some (some sM) ∧
    getBucket (summarize_groups groups scores) Bucket.Others =
      some (some ((sW * (group_count groups CategoryLabel.Weekly : ℚ) +
        sD * (group_count groups CategoryLabel.Daily : ℚ) +
        sH * (group_count groups CategoryLabel.Hourly : ℚ)) /
        ((group_count groups CategoryLabel.Weekly : ℚ) +
         (group_count groups CategoryLabel.Daily : ℚ) +
         (group_count groups CategoryLabel.Hourly : ℚ)))) := by
  rw [summarize_groups_eq groups scores sY sQ sM sW sD sH hY hQ hM hW hD hH]
  have hne : group_count groups CategoryLabel.Weekly +
      group_count groups CategoryLabel.Daily +
      group_count groups CategoryLabel.Hourly ≠ 0 := Nat.pos_iff_ne_zero.mp hcnt
  refine ⟨by rw [getBucket_ok, aget5_Y], by rw [getBucket_ok, aget5_Q],
    by rw [getBucket_ok, aget5_M], ?_⟩
  rw [getBucket_ok, aget5_O, if_neg hne]
  push_cast
  rfl

/-- Claim C1 witness: the spec example, with counts 2, 3, 5, 1, 1, 1 and
scores 1 to 6, gives Others = (4 + 5 + 6) / 3 = 5. -/
theorem summarize_groups_majors_passthrough_others_weighted_witness :
    aget exScores CategoryLabel.Weekly = some 4 ∧
    getBucket (summarize_groups exGroups exScores) Bucket.Others =
      some (some 5) := by
  have h := summarize_groups_majors_passthrough_others_weighted exGroups
    exScores 1 2 3 4 5 6 rfl rfl rfl rfl rfl rfl (by decide)
  refine ⟨rfl, ?_⟩
  rw [h.2.2.2]
  rw [show group_count exGroups CategoryLabel.Weekly = 1 from rfl,
    show group_count exGroups CategoryLabel.Daily = 1 from rfl,
    show group_count exGroups CategoryLabel.Hourly = 1 from rfl]
  norm_num

/-- Claim C2: the Average entry of summarize_groups is the sum of all six
count-weighted scores divided by the total number of series across all
six categories (the length of the groups column, which equals the sum of
the six per-category counts, not the number of reported buckets). -/
theorem summarize_groups_average_total_count
    (groups : List CategoryLabel) (scores : List (CategoryLabel × ℚ))
    (sY sQ sM sW sD sH : ℚ)
    (hY : aget scores CategoryLabel.Yearly = some sY)
    (hQ : aget scores CategoryLabel.Quarterly = some sQ)
    (hM : aget scores CategoryLabel.Monthly = some sM)
    (hW : aget scores CategoryLabel.Weekly = some sW)
    (hD : aget scores CategoryLabel.Daily = some sD)
    (hH : aget scores CategoryLabel.Hourly = some sH)
    (hlen : 0 < groups.length) :
    getBucket (summarize_groups groups scores) Bucket.Average =
      some (some ((sY * (group_count groups CategoryLabel.Yearly : ℚ) +
        sQ * (group_count groups CategoryLabel.Quarterly : ℚ) +
        sM * (group_count groups CategoryLabel.Monthly : ℚ) +
        (sW * (group_count groups CategoryLabel.Weekly : ℚ) +
         sD * (group_count groups CategoryLabel.Daily : ℚ) +
         sH * (group_count groups CategoryLabel.Hourly : ℚ))) /
        (groups.length : ℚ))) ∧
    groups.length = group_count groups CategoryLabel.Yearly +
      group_count groups CategoryLabel.Quarterly +
      group_count groups CategoryLabel.Monthly +
      group_count groups CategoryLabel.Weekly +
      group_count groups CategoryLabel.Daily +
      group_count groups CategoryLabel.Hourly := by
  rw [summarize_groups_eq groups scores sY sQ sM sW sD sH hY hQ hM hW hD hH]
  refine ⟨?_, length_eq_sum_group_counts groups⟩
  have hne : groups.length ≠ 0 := Nat.pos_iff_ne_zero.mp hlen
  rw [getBucket_ok, aget5_A, if_neg hne]

/-- Claim C2 witness: the spec example yields
Average = (1 * 2 + 2 * 3 + 3 * 5 + (4 + 5 + 6)) / 13 = 38 / 13. -/
theorem summarize_groups_average_total_count_witness :
    0 < exGroups.length ∧
    getBucket (summarize_groups exGroups exScores) Bucket.Average =
      some (some (38 / 13)) := by
  have h := summarize_groups_average_total_count exGroups exScores
    1 2 3 4 5 6 rfl rfl rfl rfl rfl rfl (by decide)
  refine ⟨by decide, ?_⟩
  rw [h.1]
  rw [show group_count exGroups CategoryLabel.Yearly = 2 from rfl,
    show group_count exGroups CategoryLabel.Quarterly = 3 from rfl,
    show group_count exGroups CategoryLabel.Monthly = 5 from rfl,
    show group_count exGroups CategoryLabel.Weekly = 1 from rfl,
    show group_count exGroups CategoryLabel.Daily = 1 from rfl,
    show group_count exGroups CategoryLabel.Hourly = 1 from rfl,
    show exGroups.length = 13 from rfl]
  norm_num

/-- Claim C4 counterexample: with the Weekly category holding zero
matching series but Daily and Hourly populated, a summarize_groups call
whose score map holds all six labels succeeds and returns a finite
Others score, so the aggregation does not fail whenever some minor
category is empty, and no EmptyCategory error exists in the code. -/
theorem summarize_groups_empty_minor_no_failure :
    group_count noWeeklyGroups CategoryLabel.Weekly = 0 ∧
    summarize_groups noWeeklyGroups unitScores = Except.ok
      [(Bucket.Yearly, some 1), (Bucket.Quarterly, some 2),
       (Bucket.Monthly, some 3), (Bucket.Others, some 4),
       (Bucket.Average, some (14 / 5))] := by
  refine ⟨by decide, ?_⟩
  rw [summarize_groups_eq noWeeklyGroups unitScores 1 2 3 4 4 4
    rfl rfl rfl rfl rfl rfl]
  rw [show group_count noWeeklyGroups CategoryLabel.Yearly = 1 from rfl,
    show group_count noWeeklyGroups CategoryLabel.Quarterly = 1 from rfl,
    show group_count noWeeklyGroups CategoryLabel.Monthly = 1 from rfl,
    show group_count noWeeklyGroups CategoryLabel.Weekly = 0 from rfl,
    show group_count noWeeklyGroups CategoryLabel.Daily = 1 from rfl,
    show group_count noWeeklyGroups CategoryLabel.Hourly = 1 from rfl,
    show noWeeklyGroups.length = 5 from rfl]
  norm_num

/-- Claim C4 (amended): the score maps evaluate feeds to
summarize_groups are keyed by the categories present in the test set, so
a minor category with zero matching series is absent from them and
summarize_groups fails with a KeyError (the missing-key dict error,
there being no EmptyCategory error class) surfaced to the caller; no NaN
and no default score is returned for the bucket. -/
theorem evaluate_empty_minor_key_error
    (testGroups : List CategoryLabel) (testValues : List (List ℚ))
    (smapeMean : List (List ℚ) → List (List ℚ) → ℚ)
    (forecast : List (List ℚ)) (c : CategoryLabel)
    (_hminor : c = CategoryLabel.Weekly ∨ c = CategoryLabel.Daily ∨
      c = CategoryLabel.Hourly)
    (hzero : group_count testGroups c = 0) :
    ∃ e, summarize_groups testGroups
      (raw_smapes smapeMean forecast testGroups testValues) =
      Except.error e := by
  have hnot : c ∉ testGroups := (group_count_eq_zero _ _).mp hzero
  have hnone : aget
      (raw_smapes smapeMean forecast testGroups testValues) c = none := by
    unfold raw_smapes
    exact aget_map_eq_none _ _ _
      (fun hm => hnot ((mem_npUnique _ _).mp hm))
  exact summarize_groups_error_of_missing _ _ c hnone

/-- Claim C4 witness: with no Weekly series in the test set, the smape
score map evaluate builds lacks the Weekly key and summarize_groups
fails. -/
theorem evaluate_empty_minor_key_error_witness :
    group_count noWeeklyGroups CategoryLabel.Weekly = 0 ∧
    ∃ e, summarize_groups noWeeklyGroups
      (raw_smapes (fun _ _ => 1) [] noWeeklyGroups []) = Except.error e := by
  exact ⟨by decide, evaluate_empty_minor_key_error noWeeklyGroups []
    (fun _ _ => 1) [] CategoryLabel.Weekly (Or.inl rfl) (by decide)⟩


theorem keys_eq_five {β : Type} (l : List (Bucket × β))
    (h : l.map Prod.fst = bucketOrder) :
    ∃ v1 v2 v3 v4 v5, l = [(Bucket.Yearly, v1), (Bucket.Quarterly, v2),
      (Bucket.Monthly, v3), (Bucket.Others, v4), (Bucket.Average, v5)] := by
  rcases l with _ | ⟨⟨k1, v1⟩, _ | ⟨⟨k2, v2⟩, _ | ⟨⟨k3, v3⟩,
    _ | ⟨⟨k4, v4⟩, _ | ⟨⟨k5, v5⟩, _ | ⟨p, t⟩⟩⟩⟩⟩⟩ <;>
    simp [bucketOrder] at h
  obtain ⟨rfl, rfl, rfl, rfl, rfl⟩ := h
  exact ⟨v1, v2, v3, v4, v5, rfl⟩

theorem grouped_owa_five (a1 a2 a3 a4 a5 b1 b2 b3 b4 b5
    c1 c2 c3 c4 c5 d1 d2 d3 d4 d5 : NpF) :
    grouped_owa
      [(Bucket.Yearly, a1), (Bucket.Quarterly, a2), (Bucket.Monthly, a3),
       (Bucket.Others, a4), (Bucket.Average, a5)]
      [(Bucket.Yearly, b1), (Bucket.Quarterly, b2), (Bucket.Monthly, b3),
       (Bucket.Others, b4), (Bucket.Average, b5)]
      [(Bucket.Yearly, c1), (Bucket.Quarterly, c2), (Bucket.Monthly, c3),
       (Bucket.Others, c4), (Bucket.Average, c5)]
      [(Bucket.Yearly, d1), (Bucket.Quarterly, d2), (Bucket.Monthly, d3),
       (Bucket.Others, d4), (Bucket.Average, d5)] =
    Except.ok
      [(Bucket.Yearly, ndiv (nadd (ndiv a1 b1) (ndiv c1 d1)) (some 2)),
       (Bucket.Quarterly, ndiv (nadd (ndiv a2 b2) (ndiv c2 d2)) (some 2)),
       (Bucket.Monthly, ndiv (nadd (ndiv a3 b3) (ndiv c3 d3)) (some 2)),
       (Bucket.Others, ndiv (nadd (ndiv a4 b4) (ndiv c4 d4)) (some 2)),
       (Bucket.Average, ndiv (nadd (ndiv a5 b5) (ndiv c5 d5)) (some 2))] :=
  rfl

/-- Claim C3: for every bucket key of the summarized maps, the combined
OWA score is (model mase summary over naive2 mase summary plus model
smape summary over naive2 smape summary) / 2, formed from the
already-aggregated per-bucket summary values, not from per-series
scores. -/
theorem grouped_owa_aggregate_then_combine
    (gmm gn2m gs gn2s : List (Bucket × NpF)) (k : Bucket) (m n2m s n2s : ℚ)
    (hk1 : gmm.map Prod.fst = bucketOrder)
    (hk2 : gn2m.map Prod.fst = bucketOrder)
    (hk3 : gs.map Prod.fst = bucketOrder)
    (hk4 : gn2s.map Prod.fst = bucketOrder)
    (hm : aget gmm k = some (some m))
    (hn2m : aget gn2m k = some (some n2m))
    (hs : aget gs k = some (some s))
    (hn2s : aget gn2s k = some (some n2s))
    (h1 : n2m ≠ 0) (h2 : n2s ≠ 0) :
    ∃ r, grouped_owa gmm gn2m gs gn2s = Except.ok r ∧
      aget r k = some (some ((m / n2m + s / n2s) / 2)) := by
  obtain ⟨a1, a2, a3, a4, a5, rfl⟩ := keys_eq_five gmm hk1
  obtain ⟨b1, b2, b3, b4, b5, rfl⟩ := keys_eq_five gn2m hk2
  obtain ⟨c1, c2, c3, c4, c5, rfl⟩ := keys_eq_five gs hk3
  obtain ⟨d1, d2, d3, d4, d5, rfl⟩ := keys_eq_five gn2s hk4
  rw [grouped_owa_five]
  refine ⟨_, rfl, ?_⟩
  cases k
  case Yearly =>
    rw [aget5_Y] at hm hn2m hs hn2s
    obtain rfl := Option.some.inj hm
    obtain rfl := Option.some.inj hn2m
    obtain rfl := Option.some.inj hs
    obtain rfl := Option.some.inj hn2s
    rw [aget5_Y]
    norm_num [ndiv, nadd, h1, h2]
  case Quarterly =>
    rw [aget5_Q] at hm hn2m hs hn2s
    obtain rfl := Option.some.inj hm
    obtain rfl := Option.some.inj hn2m
    obtain rfl := Option.some.inj hs
    obtain rfl := Option.some.inj hn2s
    rw [aget5_Q]
    norm_num [ndiv, nadd, h1, h2]
  case Monthly =>
    rw [aget5_M] at hm hn2m hs hn2s
    obtain rfl := Option.some.inj hm
    obtain rfl := Option.some.inj hn2m
    obtain rfl := Option.some.inj hs
    obtain rfl := Option.some.inj hn2s
    rw [aget5_M]
    norm_num [ndiv, nadd, h1, h2]
  case Others =>
    rw [aget5_O] at hm hn2m hs hn2s
    obtain rfl := Option.some.inj hm
    obtain rfl := Option.some.inj hn2m
    obtain rfl := Option.some.inj hs
    obtain rfl := Option.some.inj hn2s
    rw [aget5_O]
    norm_num [ndiv, nadd, h1, h2]
  case Average =>
    rw [aget5_A] at hm hn2m hs hn2s
    obtain rfl := Option.some.inj hm
    obtain rfl := Option.some.inj hn2m
    obtain rfl := Option.some.inj hs
    obtain rfl := Option.some.inj hn2s
    rw [aget5_A]
    norm_num [ndiv, nadd, h1, h2]

/-- Claim C3 witness: the spec example, model mase 0.8 against naive2
mase 1.0 and model smape 10.0 against naive2 smape 12.0, combines to
(0.8 / 1.0 + 10.0 / 12.0) / 2 = 49 / 60. -/
theorem grouped_owa_aggregate_then_combine_witness :
    ((1 : ℚ) ≠ 0) ∧
    ∃ r, grouped_owa
      (bucketOrder.map (fun b => (b, some (4 / 5 : ℚ))))
      (bucketOrder.map (fun b => (b, some (1 : ℚ))))
      (bucketOrder.map (fun b => (b, some (10 : ℚ))))
      (bucketOrder.map (fun b => (b, some (12 : ℚ)))) = Except.ok r ∧
      aget r Bucket.Yearly = some (some (((4 / 5 : ℚ) / 1 + 10 / 12) / 2)) := by
  refine ⟨one_ne_zero, grouped_owa_aggregate_then_combine _ _ _ _
    Bucket.Yearly (4 / 5) 1 10 12 rfl rfl rfl rfl rfl rfl rfl rfl
    one_ne_zero (by norm_num)⟩

theorem exceptMap_ok_fst {ε α β γ : Type} (f : (α × β) → Except ε (α × γ))
    (hf : ∀ kv b, f kv = Except.ok b → b.1 = kv.1) :
    ∀ (l : List (α × β)) (r : List (α × γ)),
      exceptMap f l = Except.ok r → r.map Prod.fst = l.map Prod.fst := by
  intro l
  induction l with
  | nil =>
      intro r h
      simp only [exceptMap, Except.ok.injEq] at h
      subst h
      rfl
  | cons a t ih =>
      intro r h
      simp only [exceptMap] at h
      cases hfa : f a with
      | error e => rw [hfa] at h; simp at h
      | ok b =>
          rw [hfa] at h
          simp only [except_bind_ok] at h
          cases hm : exceptMap f t with
          | error e => rw [hm] at h; simp at h
          | ok rt =>
              rw [hm] at h
              simp only [except_bind_ok, Except.ok.injEq] at h
              subst h
              simp [hf a b hfa, ih rt hm]

theorem grouped_owa_keys (gmm gn2m gs gn2s r : List (Bucket × NpF))
    (h : grouped_owa gmm gn2m gs gn2s = Except.ok r) :
    r.map Prod.fst = gmm.map Prod.fst := by
  refine exceptMap_ok_fst _ ?_ gmm r h
  intro kv b hb
  cases hx : getB gn2m kv.1 with
  | error e => rw [hx] at hb; simp at hb
  | ok x =>
  rw [hx] at hb
  simp only [except_bind_ok] at hb
  cases hy : getB gs kv.1 with
  | error e => rw [hy] at hb; simp at hb
  | ok y =>
  rw [hy] at hb
  simp only [except_bind_ok] at hb
  cases hz : getB gn2s kv.1 with
  | error e => rw [hz] at hb; simp at hb
  | ok z =>
  rw [hz] at hb
  simp only [except_bind_ok, Except.ok.injEq] at hb
  subst hb
  rfl

theorem summarize_groups_keys (groups : List CategoryLabel)
    (scores : List (CategoryLabel × ℚ)) (r : List (Bucket × NpF))
    (h : summarize_groups groups scores = Except.ok r) :
    r.map Prod.fst = bucketOrder := by
  cases hY : aget scores CategoryLabel.Yearly with
  | none => simp [summarize_groups, getScore, hY] at h
  | some sY =>
  cases hQ : aget scores CategoryLabel.Quarterly with
  | none => simp [summarize_groups, getScore, hY, hQ] at h
  | some sQ =>
  cases hM : aget scores CategoryLabel.Monthly with
  | none => simp [summarize_groups, getScore, hY, hQ, hM] at h
  | some sM =>
  cases hW : aget scores CategoryLabel.Weekly with
  | none => simp [summarize_groups, getScore, hY, hQ, hM, hW] at h
  | some sW =>
  cases hD : aget scores CategoryLabel.Daily with
  | none => simp [summarize_groups, getScore, hY, hQ, hM, hW, hD] at h
  | some sD =>
  cases hH : aget scores CategoryLabel.Hourly with
  | none => simp [summarize_groups, getScore, hY, hQ, hM, hW, hD, hH] at h
  | some sH =>
  rw [summarize_groups_eq groups scores sY sQ sM sW sD sH
    hY hQ hM hW hD hH] at h
  obtain rfl := Except.ok.inj h
  rfl

theorem round_all_keys (m : List (Bucket × NpF)) :
    (round_all m).map Prod.fst = m.map Prod.fst := by
  induction m with
  | nil => rfl
  | cons a t ih => simp [round_all]

/-- Claim C5: both mappings M4Summary.evaluate returns carry their keys
in the fixed order Yearly, Quarterly, Monthly, Others, Average, and each
returned value is the full-precision aggregate rounded to 3 decimal
digits only at the return boundary: the OWA map is the rounding of the
combination of the four unrounded summaries. -/
theorem evaluate_round_at_boundary_fixed_keys (s : M4Summary)
    (naive2rows : List (String × List (Option ℚ)))
    (smapeMean : List (List ℚ) → List (List ℚ) → ℚ)
    (mase : List ℚ → List ℚ → List ℚ → ℕ → ℚ)
    (fc : List (List (Option ℚ))) (o1 o2 : List (Bucket × NpF))
    (h : s.evaluate naive2rows smapeMean mase fc = Except.ok (o1, o2)) :
    o1.map Prod.fst = bucketOrder ∧ o2.map Prod.fst = bucketOrder ∧
    ∃ gs mm n2mm gmm gn2s gn2m owaU,
      summarize_groups s.test_set.groups (raw_smapes smapeMean
        (fc.map stripNaN) s.test_set.groups s.test_set.values) =
        Except.ok gs ∧
      mases_map mase s.test_set.groups (fc.map stripNaN)
        s.training_set.values s.test_set.values
        s.training_set.frequencies = Except.ok mm ∧
      mases_map mase s.test_set.groups (naive2_strip naive2rows)
        s.training_set.values s.test_set.values
        s.training_set.frequencies = Except.ok n2mm ∧
      summarize_groups s.test_set.groups mm = Except.ok gmm ∧
      summarize_groups s.test_set.groups (raw_smapes smapeMean
        (naive2_strip naive2rows) s.test_set.groups s.test_set.values) =
        Except.ok gn2s ∧
      summarize_groups s.test_set.groups n2mm = Except.ok gn2m ∧
      grouped_owa gmm gn2m gs gn2s = Except.ok owaU ∧
      o1 = round_all gs ∧ o2 = round_all owaU := by
  unfold M4Summary.evaluate evaluate_stripped at h
  cases h1 : summarize_groups s.test_set.groups (raw_smapes smapeMean
      (fc.map stripNaN) s.test_set.groups s.test_set.values) with
  | error e => rw [h1] at h; simp at h
  | ok gs =>
  rw [h1] at h
  simp only [except_bind_ok] at h
  cases h2 : mases_map mase s.test_set.groups (fc.map stripNaN)
      s.training_set.values s.test_set.values
      s.training_set.frequencies with
  | error e => rw [h2] at h; simp at h
  | ok mm =>
  rw [h2] at h
  simp only [except_bind_ok] at h
  cases h3 : mases_map mase s.test_set.groups (naive2_strip naive2rows)
      s.training_set.values s.test_set.values
      s.training_set.frequencies with
  | error e => rw [h3] at h; simp at h
  | ok n2mm =>
  rw [h3] at h
  simp only [except_bind_ok] at h
  cases h4 : summarize_groups s.test_set.groups mm with
  | error e => rw [h4] at h; simp at h
  | ok gmm =>
  rw [h4] at h
  simp only [except_bind_ok] at h
  cases h5 : summarize_groups s.test_set.groups (raw_smapes smapeMean
      (naive2_strip naive2rows) s.test_set.groups s.test_set.values) with
  | error e => rw [h5] at h; simp at h
  | ok gn2s =>
  rw [h5] at h
  simp only [except_bind_ok] at h
  cases h6 : summarize_groups s.test_set.groups n2mm with
  | error e => rw [h6] at h; simp at h
  | ok gn2m =>
  rw [h6] at h
  simp only [except_bind_ok] at h
  cases h7 : grouped_owa gmm gn2m gs gn2s with
  | error e => rw [h7] at h; simp at h
  | ok owaU =>
  rw [h7] at h
  simp only [except_bind_ok, Except.ok.injEq, Prod.mk.injEq] at h
  obtain ⟨ho1, ho2⟩ := h
  subst ho1
  subst ho2
  refine ⟨?_, ?_, gs, mm, n2mm, gmm, gn2s, gn2m, owaU,
    rfl, rfl, rfl, h4, rfl, h6, h7, rfl, rfl⟩
  · rw [round_all_keys]
    exact summarize_groups_keys _ _ _ h1
  · rw [round_all_keys]
    rw [grouped_owa_keys gmm gn2m gs gn2s owaU h7]
    exact summarize_groups_keys _ _ _ h4

/-- Claim C5 witness: the tiny all-ones session evaluates successfully
and both returned maps carry the five keys in declared order. -/
theorem evaluate_round_at_boundary_fixed_keys_witness :
    tinySummary.evaluate tinyNaive2 (fun _ _ => 1) (fun _ _ _ _ => 1)
      tinyForecast = Except.ok (tinyOut, tinyOut) ∧
    tinyOut.map Prod.fst = bucketOrder := by
  have hrun : tinySummary.evaluate tinyNaive2 (fun _ _ => 1)
      (fun _ _ _ _ => 1) tinyForecast = Except.ok (tinyOut, tinyOut) := by
    with_unfolding_all rfl
  exact ⟨hrun, (evaluate_round_at_boundary_fixed_keys tinySummary
    tinyNaive2 (fun _ _ => 1) (fun _ _ _ _ => 1) tinyForecast
    tinyOut tinyOut hrun).1⟩

theorem stripNaN_cons_some (a : ℚ) (l : List (Option ℚ)) :
    stripNaN (some a :: l) = a :: stripNaN l := rfl

theorem stripNaN_cons_none (l : List (Option ℚ)) :
    stripNaN (none :: l) = stripNaN l := rfl

theorem stripNaN_pad (p : List ℚ) (k : ℕ) :
    stripNaN (p.map some ++ List.replicate k none) = p := by
  induction p with
  | nil =>
      induction k with
      | zero => rfl
      | succ n ih =>
          simp only [List.map_nil, List.nil_append, List.replicate_succ,
            stripNaN_cons_none]
          simpa using ih
  | cons a t ih =>
      simp only [List.map_cons, List.cons_append, stripNaN_cons_some, ih]

/-- Claim C6: on a forecast array in the documented padding layout (each
series a valid prefix followed by trailing NaN entries), the first step
of M4Summary.evaluate drops exactly the trailing invalid entries of
every series, leaves each valid prefix unchanged, and only then are any
metrics computed: the call equals the evaluation of the stripped
prefixes. -/
theorem evaluate_strips_trailing_nan (ps : List (List ℚ)) (ks : List ℕ)
    (h : ps.length = ks.length) :
    (padForecast ps ks).map stripNaN = ps ∧
    ∀ (s : M4Summary) (naive2rows : List (String × List (Option ℚ)))
      (smapeMean : List (List ℚ) → List (List ℚ) → ℚ)
      (mase : List ℚ → List ℚ → List ℚ → ℕ → ℚ),
      s.evaluate naive2rows smapeMean mase (padForecast ps ks) =
        evaluate_stripped s.training_set s.test_set naive2rows smapeMean
          mase ps := by
  have key : (padForecast ps ks).map stripNaN = ps := by
    induction ps generalizing ks with
    | nil => simp [padForecast]
    | cons p pt ih =>
        cases ks with
        | nil => simp at h
        | cons k kt =>
            simp only [padForecast, List.zipWith_cons_cons, List.map_cons]
            rw [stripNaN_pad p k]
            have ht : pt.length = kt.length := by
              simpa using h
            have := ih kt ht
            simp only [padForecast] at this
            rw [this]
  refine ⟨key, ?_⟩
  intro s naive2rows smapeMean mase
  unfold M4Summary.evaluate
  rw [key]

/-- Claim C6 witness: a two-step series padded with two NaN entries is
stripped back to its valid prefix. -/
theorem evaluate_strips_trailing_nan_witness :
    ([[(1 : ℚ), 2]].length = [2].length) ∧
    (padForecast [[(1 : ℚ), 2]] [2]).map stripNaN = [[(1 : ℚ), 2]] := by
  exact ⟨rfl, (evaluate_strips_trailing_nan [[(1 : ℚ), 2]] [2] rfl).1⟩

/-- Claim C7: M4Dataset.load surfaces a missing reference table or a
missing partition cache immediately as the corresponding file-not-found
error (there is no retry and no cache rebuild anywhere in the function),
and on success the returned dataset is assembled purely from the two
reads, the file system being left untouched by construction. -/
theorem load_missing_file_fails_no_side_effects (fs : M4FS)
    (training : Bool) :
    (fs.infoFile = none →
      M4Dataset.load fs training =
        Except.error (LoadErr.fileNotFound INFO_FILE_PATH)) ∧
    (∀ i, fs.infoFile = some i →
      (if training then fs.trainingCache else fs.testCache) = none →
      M4Dataset.load fs training = Except.error (LoadErr.fileNotFound
        (if training then TRAINING_DATASET_CACHE_FILE_PATH
         else TEST_DATASET_CACHE_FILE_PATH))) ∧
    (∀ d, M4Dataset.load fs training = Except.ok d →
      ∃ i, fs.infoFile = some i ∧
        (if training then fs.trainingCache else fs.testCache) =
          some d.values ∧
        d.ids = i.M4id ∧ d.groups = i.SP ∧ d.frequencies = i.Frequency ∧
        d.horizons = i.Horizon) := by
  refine ⟨?_, ?_, ?_⟩
  · intro hi
    simp [M4Dataset.load, hi]
  · intro i hi hc
    simp [M4Dataset.load, hi, hc]
  · intro d hd
    cases hi : fs.infoFile with
    | none => simp [M4Dataset.load, hi] at hd
    | some i =>
        cases hc : (if training then fs.trainingCache else fs.testCache) with
        | none => simp [M4Dataset.load, hi, hc] at hd
        | some v =>
            simp only [M4Dataset.load, hi, hc, except_bind_ok,
              Except.ok.injEq] at hd
            subst hd
            exact ⟨i, rfl, rfl, rfl, rfl, rfl, rfl⟩

/-- Claim C7 witness: on an empty directory the load of the training
partition fails with the reference-table file-not-found error. -/
theorem load_missing_file_fails_no_side_effects_witness :
    (M4FS.mk none none none).infoFile = none ∧
    M4Dataset.load (M4FS.mk none none none) true =
      Except.error (LoadErr.fileNotFound INFO_FILE_PATH) := by
  exact ⟨rfl,
    (load_missing_file_fails_no_side_effects (M4FS.mk none none none)
      true).1 rfl⟩

/-- Claim C8: evaluation is deterministic and mutation free over the
loaded session: the state-passing form of M4Summary.evaluate returns the
session unchanged, a second run on the returned session yields the same
result, and the category groupings re-derived from the returned session
are identical to those of the original session. -/
theorem evaluate_deterministic_read_only (s : M4Summary)
    (naive2rows : List (String × List (Option ℚ)))
    (smapeMean : List (List ℚ) → List (List ℚ) → ℚ)
    (mase : List ℚ → List ℚ → List ℚ → ℕ → ℚ)
    (forecast : List (List (Option ℚ))) :
    (s.evaluateS naive2rows smapeMean mase forecast).2 = s ∧
    (((s.evaluateS naive2rows smapeMean mase forecast).2).evaluateS
      naive2rows smapeMean mase forecast).1 =
      (s.evaluateS naive2rows smapeMean mase forecast).1 ∧
    deriveGroupings
      ((s.evaluateS naive2rows smapeMean mase forecast).2).test_set =
      deriveGroupings s.test_set := by
  exact ⟨rfl, rfl, rfl⟩

theorem exceptMap_congr {ε α β : Type} (f g : α → Except ε β) (l : List α)
    (h : ∀ a ∈ l, f a = g a) : exceptMap f l = exceptMap g l := by
  induction l with
  | nil => rfl
  | cons a t ih =>
      have ha := h a (List.mem_cons_self a t)
      have ht := ih (fun x hx => h x (List.mem_cons_of_mem a hx))
      simp only [exceptMap, ha, ht]

theorem exceptMap_ok_map {ε α β : Type} (f : α → Except ε β) (g : α → β)
    (l : List α) (h : ∀ a ∈ l, f a = Except.ok (g a)) :
    exceptMap f l = Except.ok (l.map g) := by
  induction l with
  | nil => rfl
  | cons a t ih =>
      have ha := h a (List.mem_cons_self a t)
      have ht := ih (fun x hx => h x (List.mem_cons_of_mem a hx))
      simp [exceptMap, ha, ht]

/-- Claim C9: within each category, evaluate scores every series of the
category with one shared frequency, the declared frequency of the first
series of that category in reference-table row order: the computed mase
map depends on the frequency column only through that per-category first
value (so two frequency columns agreeing on it give identical scores,
whatever the other series declare), and when every present category has
a first frequency the map lists, per category, the mean of the
per-series mase calls all made with that shared frequency. -/
theorem mases_use_first_series_frequency
    (mase : List ℚ → List ℚ → List ℚ → ℕ → ℚ)
    (fc trv tv : List (List ℚ)) (tg : List CategoryLabel)
    (freqs freqs2 : List ℕ) (ff : CategoryLabel → ℕ)
    (hagree : ∀ g : CategoryLabel,
      groupFrequency tg freqs g = groupFrequency tg freqs2 g)
    (hf : ∀ g ∈ npUnique tg, groupFrequency tg freqs g = some (ff g)) :
    mases_map mase tg fc trv tv freqs =
      mases_map mase tg fc trv tv freqs2 ∧
    mases_map mase tg fc trv tv freqs = Except.ok
      ((npUnique tg).map (fun g =>
        (g, listMean (zipWith3 (fun f i t => mase f i t (ff g))
          (group_values fc tg g) (group_values trv tg g)
          (group_values tv tg g))))) := by
  constructor
  · unfold mases_map
    refine exceptMap_congr _ _ _ ?_
    intro g _
    rw [hagree g]
  · unfold mases_map
    refine exceptMap_ok_map _ _ _ ?_
    intro g hg
    rw [hf g hg]
    rfl

/-- Claim C9 witness: two Monthly series whose frequency column differs
in the second position (12, 7 against 12, 99) receive identical mase
scores, both computed with the first series frequency 12 (the mase
parameter returns the frequency it is handed, exposing which one is
used). -/
theorem mases_use_first_series_frequency_witness :
    (∀ g : CategoryLabel,
      groupFrequency [CategoryLabel.Monthly, CategoryLabel.Monthly]
        [12, 7] g =
      groupFrequency [CategoryLabel.Monthly, CategoryLabel.Monthly]
        [12, 99] g) ∧
    mases_map (fun _ _ _ fr => (fr : ℚ))
      [CategoryLabel.Monthly, CategoryLabel.Monthly]
      [[1], [1]] [[1], [1]] [[1], [1]] [12, 7] =
    mases_map (fun _ _ _ fr => (fr : ℚ))
      [CategoryLabel.Monthly, CategoryLabel.Monthly]
      [[1], [1]] [[1], [1]] [[1], [1]] [12, 99] := by
  refine ⟨by decide, (mases_use_first_series_frequency
    (fun _ _ _ fr => (fr : ℚ)) [[1], [1]] [[1], [1]] [[1], [1]]
    [CategoryLabel.Monthly, CategoryLabel.Monthly] [12, 7] [12, 99]
    (fun _ => 12) (by decide) (by decide)).1⟩

/-- Claim C10: whenever the dataset directory already exists,
M4Dataset.download returns at once with the disk unchanged and an empty
action log: no download, no archive extraction and no cache build is
performed, whatever files the directory is missing. -/
theorem download_skips_existing_dir (netInfo : InfoTable)
    (netTrain netTest netNaive2 : List (String × List (Option ℚ)))
    (ds : DiskState) (h : ds.datasetDirExists = true) :
    M4Dataset.download netInfo netTrain netTest netNaive2 ds = (ds, []) := by
  simp [M4Dataset.download, h]

/-- Claim C10 witness: a dataset directory that exists but holds no
reference table, no cache and no baseline file is still skipped
untouched. -/
theorem download_skips_existing_dir_witness :
    (DiskState.mk true none none none none).datasetDirExists = true ∧
    M4Dataset.download (InfoTable.mk [] [] [] []) [] [] []
      (DiskState.mk true none none none none) =
      (DiskState.mk true none none none none, []) :=
  ⟨rfl, download_skips_existing_dir (InfoTable.mk [] [] [] []) [] [] []
    (DiskState.mk true none none none none) rfl⟩
